import Mathlib

/-!
# Verification of the go-nmea sentence-framing engine

Shallow embedding of the NMEA 0183 sentence parser (`sentence.go`,
`zda.go` and companion decoder files) together with proofs about the
framing, checksum, dispatch and field-accessor layers.

Go strings are byte strings and the parser indexes and slices them by
byte.  All inputs of interest are ASCII, so a Go string is embedded as a
`List Char` in which every character stands for one byte; byte values
are taken with `Char.toNat` reduced mod 256.
-/

/-- A Go string, seen as its byte sequence (one `Char` per byte). -/
abbrev GoStr := List Char

/-- Byte value of one character (Go indexes strings by byte; inputs are
ASCII so `toNat` already is the byte value, the mod is the `uint8` cast). -/
def byteVal (c : Char) : Nat := c.toNat % 256

/-- Embeds `strings.IndexAny(s, chars)`: index of the first character of
`s` that belongs to `chars`, `none` for Go's `-1`. -/
def goIndexAny (chars : List Char) : GoStr → Option Nat
  | [] => none
  | c :: rest =>
    if chars.contains c then some 0
    else (goIndexAny chars rest).map (· + 1)

/-- Embeds `strings.Index(s, sep)` for a one-character separator:
index of the first occurrence, `none` for Go's `-1`. -/
def goIndexOf (sep : Char) : GoStr → Option Nat
  | [] => none
  | c :: rest =>
    if c = sep then some 0
    else (goIndexOf sep rest).map (· + 1)

/-- Embeds the Go slice `s[a:b]` (bytes `a` to `b-1`).  Totalised with
`take`/`drop`; `ParseSentence` performs Go's bound check explicitly at
its one slicing site that can be out of range. -/
def goSlice (s : GoStr) (a b : Nat) : GoStr := (s.take b).drop a

/-- Embeds `strings.Split(s, sep)` for a one-character separator.
`goSplit sep s` is never empty and `goSplit sep [] = [[]]`, as in Go. -/
def goSplit (sep : Char) : GoStr → List GoStr
  | [] => [[]]
  | c :: rest =>
    if c = sep then [] :: goSplit sep rest
    else
      match goSplit sep rest with
      | [] => [[c]]
      | h :: t => (c :: h) :: t

/-- Embeds `strings.ToUpper` (ASCII range, which covers NMEA text). -/
def goToUpper (s : GoStr) : GoStr := s.map Char.toUpper

/-- Embeds `strings.HasPrefix(s, [c])` for a one-character pattern. -/
def goStartsWith (c : Char) : GoStr → Bool
  | [] => false
  | x :: _ => x = c

/-- The sentence data extracted by the framer (`BaseSentence` in
`sentence.go`); `Typ` stands for the Go field `Type`. -/
structure BaseSentence where
  Talker : GoStr
  Typ : GoStr
  Fields : List GoStr
  Checksum : GoStr
  Raw : GoStr
deriving DecidableEq

/-- The zero value `BaseSentence{}` returned on every error path. -/
def emptyBase : BaseSentence :=
  { Talker := [], Typ := [], Fields := [], Checksum := [], Raw := [] }

/-- The error values the engine can produce (each constructor stands for
one of the `fmt.Errorf` sites, carrying the data interpolated there). -/
inductive NmeaError where
  /-- "nmea: sentence does not start with a '$' or '!'" -/
  | noStartMarker : NmeaError
  /-- "nmea: sentence does not contain checksum separator" -/
  | noChecksumSep : NmeaError
  /-- "nmea: sentence checksum mismatch [computed != declared]" -/
  | checksumMismatch (computed declared : GoStr) : NmeaError
  /-- "nmea: sentence prefix '...' not supported" (talker ++ type) -/
  | unsupported (pfx : GoStr) : NmeaError
  /-- Field-parser type assertion failure (expected vs actual type code). -/
  | typeMismatch (expected actual : GoStr) : NmeaError
  /-- Field-parser accessor failure, naming the field and offending text. -/
  | fieldParse (name text : GoStr) : NmeaError
deriving DecidableEq

/-- Outcome of `ParseSentence`, which in Go returns the pair
`(BaseSentence, error)`: `ok` is a `nil` error, `err` carries both the
returned record and the error, and `fault` is a runtime panic
(out-of-range slice). -/
inductive POutcome where
  | ok (s : BaseSentence) : POutcome
  | err (s : BaseSentence) (e : NmeaError) : POutcome
  | fault : POutcome
deriving DecidableEq

/-- One uppercase hexadecimal digit, as printed by `%X`. -/
def hexDigit (n : Nat) : Char :=
  if n < 10 then Char.ofNat (48 + n) else Char.ofNat (55 + n)

/-- Rendering of `n < 256` with format `%02X`: exactly two uppercase hex
digits. -/
def toHex2 (n : Nat) : GoStr := [hexDigit (n / 16), hexDigit (n % 16)]

/-- One iteration of the XOR loop of `xorChecksum` (`uint8` accumulator,
hence the mod). -/
def xorStep (acc : Nat) (c : Char) : Nat := (acc ^^^ byteVal c) % 256

/-- The XOR accumulation loop of `xorChecksum`. -/
def xorBytes (s : GoStr) : Nat := s.foldl xorStep 0

/-- Embeds `xorChecksum` from `sentence.go`: XOR of all bytes of `s`,
rendered as two uppercase hex digits. -/
def xorChecksum (s : GoStr) : GoStr := toHex2 (xorBytes s)

/-- Embeds `parsePrefix` from `sentence.go` (the name avoids a reserved
token): split the leading field into talker id and type code. -/
def parsePfx (s : GoStr) : GoStr × GoStr :=
  if goStartsWith 'P' s then (['P'], s.drop 1)
  else if s.length < 2 then (s, [])
  else (s.take 2, s.drop 2)

/-- Embeds `ParseSentence` from `sentence.go`.  `startIndex` must be `0`;
the checksum text is the Go slice `raw[sumSepIndex+1 : sumSepIndex+2]`
(a single byte), which panics — `fault` — when the separator is the last
byte of the input. -/
def ParseSentence (raw : GoStr) : POutcome :=
  let startIndex := goIndexAny ['$', '!'] raw
  if startIndex ≠ some 0 then .err emptyBase .noStartMarker
  else
    match goIndexOf '*' raw with
    | none => .err emptyBase .noChecksumSep
    | some sumSepIndex =>
      -- Go evaluates raw[sumSepIndex+1:sumSepIndex+2] before comparing
      -- checksums; the slice is out of range iff len(raw) < sumSepIndex+2.
      if raw.length < sumSepIndex + 2 then .fault
      else
        let fieldsRaw := goSlice raw 1 sumSepIndex
        let fields := goSplit ',' fieldsRaw
        let checksumRaw := goToUpper (goSlice raw (sumSepIndex + 1) (sumSepIndex + 2))
        let checksum := xorChecksum fieldsRaw
        if checksum ≠ checksumRaw then
          .err emptyBase (.checksumMismatch checksum checksumRaw)
        else
          let tt := parsePfx (fields.headD [])
          .ok { Talker := tt.1, Typ := tt.2, Fields := fields.tail,
                Checksum := checksumRaw, Raw := raw }

/-! ## The field parser (typed accessor object)

The parser file itself is not part of the shown source (only its callers
`newZDA`, `newHBT`, `newDBT` are), so the accessor object is modelled
from the spec, §4.3: it wraps the sentence's field list, holds a single
write-once first-error slot, records a `TypeMismatchError` or
`FieldParseError` on a failed call without halting, maps an empty field
to the zero value without error, and `Err()` surfaces the first recorded
error. -/

/-- Modelled from the spec: the field-accessor object (`FieldAccumulator`,
the source's parser type, absent from the shown material): the wrapped
sentence and the single first-encountered-error slot. -/
structure Parser where
  s : BaseSentence
  err : Option NmeaError
deriving DecidableEq

/-- Modelled from the spec: a fresh accessor over `s` with no error. -/
def NewParser (s : BaseSentence) : Parser := ⟨s, none⟩

/-- Modelled from the spec: write-once error recording — once an error is
recorded it is never overwritten or cleared. -/
def Parser.recordErr (p : Parser) (e : NmeaError) : Parser :=
  match p.err with
  | some _ => p
  | none => { p with err := some e }

/-- Modelled from the spec: `Err()` returns the first recorded error. -/
def Parser.Err (p : Parser) : Option NmeaError := p.err

/-- Modelled from the spec: `AssertType(expected)` records a
`TypeMismatchError` when the sentence's type code differs. -/
def Parser.AssertType (p : Parser) (typ : GoStr) : Parser :=
  if p.s.Typ = typ then p else p.recordErr (.typeMismatch typ p.s.Typ)

/-- Modelled from the spec: `String(i, name)` — the raw field at index
`i`, or the empty string plus a recorded `FieldParseError` when the
index is out of range. -/
def Parser.String (p : Parser) (i : Nat) (name : GoStr) : GoStr × Parser :=
  match p.s.Fields[i]? with
  | some f => (f, p)
  | none => ([], p.recordErr (.fieldParse name []))

/-- ASCII decimal digit test. -/
def isDigit (c : Char) : Bool := 48 ≤ c.toNat && c.toNat ≤ 57

/-- Value of an all-digit string. -/
def digitsVal (s : GoStr) : Nat :=
  s.foldl (fun n c => n * 10 + (c.toNat - 48)) 0

/-- Modelled from the spec: base-10 signed integer syntax for the `Int64`
getter (optional sign, at least one digit; range checks out of scope). -/
def parseInt64? (s : GoStr) : Option Int :=
  match s with
  | '-' :: rest =>
    if !rest.isEmpty && rest.all isDigit then some (-(digitsVal rest : Int)) else none
  | '+' :: rest =>
    if !rest.isEmpty && rest.all isDigit then some (digitsVal rest : Int) else none
  | _ => if !s.isEmpty && s.all isDigit then some (digitsVal s : Int) else none

/-- Modelled from the spec: `Int64(i, name)` — empty field means "not
provided" and yields `0` without error; malformed text records a
`FieldParseError` naming the field and the offending text. -/
def Parser.Int64 (p : Parser) (i : Nat) (name : GoStr) : Int × Parser :=
  let fp := p.String i name
  if fp.1.isEmpty then (0, fp.2)
  else
    match parseInt64? fp.1 with
    | some v => (v, fp.2)
    | none => (0, fp.2.recordErr (.fieldParse name fp.1))

/-- The wall-clock time value carried by time fields (the `Time` type of
the source, reconstructed from the spec's wire format `hhmmss.sss`). -/
structure GoTime where
  Valid : Bool
  Hour : Nat
  Minute : Nat
  Second : Nat
  Millisecond : Nat
deriving DecidableEq

/-- The zero `Time{}` value. -/
def zeroTime : GoTime := ⟨false, 0, 0, 0, 0⟩

/-- Modelled from the spec: time-of-day field syntax `hhmmss` with an
optional fractional-seconds tail. -/
def parseTime? (s : GoStr) : Option GoTime :=
  if (s.take 6).length = 6 && (s.take 6).all isDigit then
    let hh := digitsVal (goSlice s 0 2)
    let mm := digitsVal (goSlice s 2 4)
    let ss := digitsVal (goSlice s 4 6)
    match s.drop 6 with
    | [] => some ⟨true, hh, mm, ss, 0⟩
    | '.' :: frac =>
      if !frac.isEmpty && frac.all isDigit then
        some ⟨true, hh, mm, ss, digitsVal (frac.take 3)⟩
      else none
    | _ => none
  else none

/-- Modelled from the spec: `Time(i, name)` — empty field yields the
invalid zero time without error; malformed text records a
`FieldParseError`. -/
def Parser.Time (p : Parser) (i : Nat) (name : GoStr) : GoTime × Parser :=
  let fp := p.String i name
  if fp.1.isEmpty then (zeroTime, fp.2)
  else
    match parseTime? fp.1 with
    | some t => (t, fp.2)
    | none => (zeroTime, fp.2.recordErr (.fieldParse name fp.1))

/-! ## Sentence type codes and decoders -/

/-- Type constant from `zda.go`. -/
def TypeZDA : GoStr := "ZDA".data

/-- Type constant from the HBT decoder file. -/
def TypeHBT : GoStr := "HBT".data

/-- Type constant from the DBT decoder file. -/
def TypeDBT : GoStr := "DBT".data

/-- Modelled from the spec: the remaining type constants, absent from the
shown material; each code equals its sentence-type string, except the
proprietary Garmin sentence whose type is `GRME` (its full wire name
`PGRME` splits into talker `P` and type `GRME`). -/
def TypeALC : GoStr := "ALC".data
def TypeALF : GoStr := "ALF".data
def TypeALR : GoStr := "ALR".data
def TypeARC : GoStr := "ARC".data
def TypeDBK : GoStr := "DBK".data
def TypeDBS : GoStr := "DBS".data
def TypeDPT : GoStr := "DPT".data
def TypeHDG : GoStr := "HDG".data
def TypeRMC : GoStr := "RMC".data
def TypeROT : GoStr := "ROT".data
def TypeGGA : GoStr := "GGA".data
def TypeGSA : GoStr := "GSA".data
def TypeGLL : GoStr := "GLL".data
def TypeVTG : GoStr := "VTG".data
def TypePGRME : GoStr := "GRME".data
def TypeGSV : GoStr := "GSV".data
def TypeHDT : GoStr := "HDT".data
def TypeGNS : GoStr := "GNS".data
def TypeTHS : GoStr := "THS".data
def TypeWPL : GoStr := "WPL".data
def TypeRTE : GoStr := "RTE".data
def TypeVHW : GoStr := "VHW".data
def TypeVDM : GoStr := "VDM".data
def TypeVDO : GoStr := "VDO".data

/-- The ZDA record from `zda.go` (`Base` stands for the embedded
`BaseSentence`). -/
structure ZDA where
  Base : BaseSentence
  Time : GoTime
  Day : Int
  Month : Int
  Year : Int
  OffsetHours : Int
  OffsetMinutes : Int
deriving DecidableEq

/-- Embeds `newZDA` from `zda.go`: asserts the type code, pulls the six
typed fields in order through the accessor object, and returns the
record together with the first accumulated error. -/
def newZDA (s : BaseSentence) : ZDA × Option NmeaError :=
  let p0 := (NewParser s).AssertType TypeZDA
  let r1 := p0.Time 0 "time".data
  let r2 := r1.2.Int64 1 "day".data
  let r3 := r2.2.Int64 2 "month".data
  let r4 := r3.2.Int64 3 "year".data
  let r5 := r4.2.Int64 4 "offset (hours)".data
  let r6 := r5.2.Int64 5 "offset (minutes)".data
  (⟨s, r1.1, r2.1, r3.1, r4.1, r5.1, r6.1⟩, r6.2.Err)

/-- The polymorphic decode result (the `Sentence` interface).  The ZDA
variant is embedded fully; the other decoders' field layouts are out of
scope in the spec and their files absent, so their variants carry the
type code and base sentence. -/
inductive Decoded where
  | zda (z : ZDA) : Decoded
  | other (code : GoStr) (s : BaseSentence) : Decoded
deriving DecidableEq

/-- Modelled from the spec: a message decoder other than `newZDA` (their
files are not in the shown material; per-type field layouts are declared
out of scope).  Each constructs a field parser over the sentence, asserts
its type code, and returns its variant with the accumulated error. -/
def newOther (code : GoStr) (s : BaseSentence) : Decoded × Option NmeaError :=
  (.other code s, ((NewParser s).AssertType code).Err)

/-- Outcome of `Parse`, which in Go returns `(Sentence, error)`: `ok d e`
is a decoder's record together with its (possibly `nil`) accumulated
error, `err` is the `(nil, error)` shape of the pre-dispatch failures,
and `fault` propagates a panic from `ParseSentence`. -/
inductive DOutcome where
  | ok (d : Decoded) (e : Option NmeaError) : DOutcome
  | err (e : NmeaError) : DOutcome
  | fault : DOutcome
deriving DecidableEq

/-- The `switch s.Type` ladder of `Parse` under the `$` framing check,
case for case in source order; `none` when no case matches. -/
def dispatchConventional (s : BaseSentence) : Option (Decoded × Option NmeaError) :=
  if s.Typ = TypeALC then some (newOther TypeALC s)
  else if s.Typ = TypeALF then some (newOther TypeALF s)
  else if s.Typ = TypeALR then some (newOther TypeALR s)
  else if s.Typ = TypeARC then some (newOther TypeARC s)
  else if s.Typ = TypeDBK then some (newOther TypeDBK s)
  else if s.Typ = TypeDBS then some (newOther TypeDBS s)
  else if s.Typ = TypeDBT then some (newOther TypeDBT s)
  else if s.Typ = TypeDPT then some (newOther TypeDPT s)
  else if s.Typ = TypeHBT then some (newOther TypeHBT s)
  else if s.Typ = TypeHDG then some (newOther TypeHDG s)
  else if s.Typ = TypeRMC then some (newOther TypeRMC s)
  else if s.Typ = TypeROT then some (newOther TypeROT s)
  else if s.Typ = TypeGGA then some (newOther TypeGGA s)
  else if s.Typ = TypeGSA then some (newOther TypeGSA s)
  else if s.Typ = TypeGLL then some (newOther TypeGLL s)
  else if s.Typ = TypeVTG then some (newOther TypeVTG s)
  else if s.Typ = TypeZDA then some ((fun r => (Decoded.zda r.1, r.2)) (newZDA s))
  else if s.Typ = TypePGRME then some (newOther TypePGRME s)
  else if s.Typ = TypeGSV then some (newOther TypeGSV s)
  else if s.Typ = TypeHDT then some (newOther TypeHDT s)
  else if s.Typ = TypeGNS then some (newOther TypeGNS s)
  else if s.Typ = TypeTHS then some (newOther TypeTHS s)
  else if s.Typ = TypeWPL then some (newOther TypeWPL s)
  else if s.Typ = TypeRTE then some (newOther TypeRTE s)
  else if s.Typ = TypeVHW then some (newOther TypeVHW s)
  else none

/-- The `switch s.Type` under the `!` framing check (`VDM`/`VDO` share
one decoder). -/
def dispatchEncapsulated (s : BaseSentence) : Option (Decoded × Option NmeaError) :=
  if s.Typ = TypeVDM ∨ s.Typ = TypeVDO then some (newOther s.Typ s)
  else none

/-- Embeds `Parse` from `sentence.go`: frame and validate via
`ParseSentence`, then select the namespace by the start marker of the
raw text and dispatch on the type code; an unmatched pair falls through
to the unsupported-sentence error naming `s.Talker ++ s.Typ`
(`s.Prefix()` in the source). -/
def Parse (raw : GoStr) : DOutcome :=
  match ParseSentence raw with
  | .fault => .fault
  | .err _ e => .err e
  | .ok s =>
    match (if goStartsWith '$' s.Raw then dispatchConventional s else none) with
    | some r => .ok r.1 r.2
    | none =>
      match (if goStartsWith '!' s.Raw then dispatchEncapsulated s else none) with
      | some r => .ok r.1 r.2
      | none => .err (.unsupported (s.Talker ++ s.Typ))

/-- Whether a `ParseSentence` outcome is a success (`nil` error). -/
def POutcome.isOk : POutcome → Bool
  | .ok _ => true
  | .err _ _ => false
  | .fault => false

/-! ## Accessor call sequences

A decode call is a sequence of typed accessor calls against one parser
object (`newZDA` performs `AssertType` then six getters).  To state the
first-error-wins contract over every such sequence, calls are reified as
data and executed in order. -/

/-- One typed accessor call of a decode body. -/
inductive Call where
  | assertType (typ : GoStr) : Call
  | getString (i : Nat) (name : GoStr) : Call
  | getInt64 (i : Nat) (name : GoStr) : Call
  | getTime (i : Nat) (name : GoStr) : Call
deriving DecidableEq

/-- Execute one accessor call for its effect on the parser state. -/
def applyCall (p : Parser) : Call → Parser
  | .assertType t => p.AssertType t
  | .getString i n => (p.String i n).2
  | .getInt64 i n => (p.Int64 i n).2
  | .getTime i n => (p.Time i n).2

/-- Execute a decode body's accessor calls in order. -/
def runCalls (p : Parser) (cs : List Call) : Parser := cs.foldl applyCall p

/-- Whether one call fails against sentence `s`, and with which error.
A call's success depends only on the immutable sentence, never on the
parser's error slot. -/
def callErr (s : BaseSentence) : Call → Option NmeaError
  | .assertType t => if s.Typ = t then none else some (.typeMismatch t s.Typ)
  | .getString i n =>
    match s.Fields[i]? with
    | some _ => none
    | none => some (.fieldParse n [])
  | .getInt64 i n =>
    match s.Fields[i]? with
    | none => some (.fieldParse n [])
    | some f =>
      if f.isEmpty then none
      else match parseInt64? f with
        | some _ => none
        | none => some (.fieldParse n f)
  | .getTime i n =>
    match s.Fields[i]? with
    | none => some (.fieldParse n [])
    | some f =>
      if f.isEmpty then none
      else match parseTime? f with
        | some _ => none
        | none => some (.fieldParse n f)

/-- The error of the first failing accessor call, in call order — the
spec's words for what `Err()` must report. -/
def firstFailure (s : BaseSentence) : List Call → Option NmeaError
  | [] => none
  | c :: cs =>
    match callErr s c with
    | some e => some e
    | none => firstFailure s cs

/-- Left-biased choice on the error slot. -/
def orFirst (a b : Option NmeaError) : Option NmeaError :=
  match a with
  | some e => some e
  | none => b

/-- A ZDA sentence whose `day` and `month` fields are both malformed,
exercising two accessor failures in one decode call. -/
def zdaSample : BaseSentence :=
  { Talker := "GP".data, Typ := "ZDA".data,
    Fields := ["".data, "x1".data, "y2".data, "2002".data, "-3".data, "00".data],
    Checksum := "62".data, Raw := "$GPZDA,,x1,y2,2002,-3,00*62".data }

/-- The accessor calls `newZDA` makes, in source order. -/
def zdaCalls : List Call :=
  [.assertType TypeZDA, .getTime 0 "time".data, .getInt64 1 "day".data,
   .getInt64 2 "month".data, .getInt64 3 "year".data,
   .getInt64 4 "offset (hours)".data, .getInt64 5 "offset (minutes)".data]

/-! ## Concrete wire inputs used by the theorems -/

/-- The spec's end-to-end RMC example sentence. -/
def rmcRaw : GoStr :=
  "$GPRMC,220516,A,5133.82,N,00042.24,W,173.8,231.8,130694,004.2,W*70".data

/-- The RMC example with a junk byte before the start marker. -/
def rmcShifted : GoStr :=
  "x$GPRMC,220516,A,5133.82,N,00042.24,W,173.8,231.8,130694,004.2,W*70".data

/-- Minimal sentence whose declared checksum (the two characters after
the separator) equals its computed checksum: XOR of the single body byte
of `A` is 41 hex. -/
def tinyValid : GoStr := "$A*41".data

/-- A sentence whose checksum separator is its final byte. -/
def tinyTruncated : GoStr := "$A*".data

/-- Well-framed, checksum-valid sentence with the unregistered type code
`ZZZ` (XOR of the body `GPZZZ` is 4D hex). -/
def zzzRaw : GoStr := "$GPZZZ*4D".data

/-- The same unregistered sentence with the separator as final byte. -/
def zzzTruncated : GoStr := "$GPZZZ*".data

/-- Well-framed, checksum-valid sentence in which the separator appears
before any comma, so it carries zero data fields (XOR of `GPAAM` is
5A hex). -/
def noFieldsRaw : GoStr := "$GPAAM*5A".data

/-! ## Supporting lemmas -/

theorem recordErr_s (p : Parser) (e : NmeaError) : (p.recordErr e).s = p.s := by
  unfold Parser.recordErr
  cases p.err <;> rfl

theorem orFirst_none (a : Option NmeaError) : orFirst a none = a := by
  unfold orFirst
  cases a <;> rfl

theorem orFirst_assoc (a b c : Option NmeaError) :
    orFirst (orFirst a b) c = orFirst a (orFirst b c) := by
  unfold orFirst
  cases a <;> rfl

theorem recordErr_err (p : Parser) (e : NmeaError) :
    (p.recordErr e).err = orFirst p.err (some e) := by
  unfold Parser.recordErr orFirst
  cases hp : p.err with
  | none => rfl
  | some v => exact hp

theorem applyCall_s (p : Parser) (c : Call) : (applyCall p c).s = p.s := by
  cases c with
  | assertType t =>
    simp only [applyCall, Parser.AssertType]
    split
    · rfl
    · exact recordErr_s p _
  | getString i n =>
    simp only [applyCall, Parser.String]
    cases p.s.Fields[i]? with
    | some f => rfl
    | none => exact recordErr_s p _
  | getInt64 i n =>
    simp only [applyCall, Parser.Int64, Parser.String]
    cases p.s.Fields[i]? with
    | some f =>
      by_cases he : f.isEmpty
      · simp [he]
      · simp only [he]
        cases parseInt64? f <;> simp [recordErr_s]
    | none => simp [recordErr_s]
  | getTime i n =>
    simp only [applyCall, Parser.Time, Parser.String]
    cases p.s.Fields[i]? with
    | some f =>
      by_cases he : f.isEmpty
      · simp [he]
      · simp only [he]
        cases parseTime? f <;> simp [recordErr_s]
    | none => simp [recordErr_s]

theorem applyCall_err (p : Parser) (c : Call) :
    (applyCall p c).err = orFirst p.err (callErr p.s c) := by
  cases c with
  | assertType t =>
    simp only [applyCall, Parser.AssertType, callErr]
    by_cases h : p.s.Typ = t <;> simp [h, recordErr_err, orFirst_none]
  | getString i n =>
    simp only [applyCall, Parser.String, callErr]
    cases p.s.Fields[i]? with
    | some f => simp [orFirst_none]
    | none => simp [recordErr_err]
  | getInt64 i n =>
    simp only [applyCall, Parser.Int64, Parser.String, callErr]
    cases p.s.Fields[i]? with
    | some f =>
      by_cases he : f.isEmpty
      · simp [he, List.isEmpty_iff.mp he, orFirst_none]
      · have he' : ¬ f = [] := by
          intro hh
          rw [hh] at he
          exact he rfl
        simp only [he, he', if_false]
        cases parseInt64? f <;> simp [recordErr_err, orFirst_none]
    | none => simp [recordErr_err]
  | getTime i n =>
    simp only [applyCall, Parser.Time, Parser.String, callErr]
    cases p.s.Fields[i]? with
    | some f =>
      by_cases he : f.isEmpty
      · simp [he, List.isEmpty_iff.mp he, orFirst_none]
      · have he' : ¬ f = [] := by
          intro hh
          rw [hh] at he
          exact he rfl
        simp only [he, he', if_false]
        cases parseTime? f <;> simp [recordErr_err, orFirst_none]
    | none => simp [recordErr_err]

theorem runCalls_err (cs : List Call) :
    ∀ p : Parser, (runCalls p cs).err = orFirst p.err (firstFailure p.s cs) := by
  induction cs with
  | nil =>
    intro p
    show p.err = orFirst p.err none
    rw [orFirst_none]
  | cons c cs ih =>
    intro p
    show (runCalls (applyCall p c) cs).err = orFirst p.err (firstFailure p.s (c :: cs))
    rw [ih (applyCall p c), applyCall_s, applyCall_err, orFirst_assoc]
    have h2 : orFirst (callErr p.s c) (firstFailure p.s cs) = firstFailure p.s (c :: cs) := by
      simp only [firstFailure]
      cases callErr p.s c
      · simp [orFirst]
      · simp [orFirst]
    rw [h2]

theorem newZDA_err_is_runCalls (s : BaseSentence) :
    (newZDA s).2 = (runCalls (NewParser s) zdaCalls).Err := by
  simp only [newZDA, runCalls, zdaCalls, List.foldl, applyCall, Parser.Err]

/-! ## The claims -/

/-- C5: within one decode call, the accessor object reports only the
error of the first accessor call that failed, in call order (first
conjunct: running any accessor sequence from a fresh parser yields
exactly the first failure), and an error once recorded is never
overwritten or cleared by later calls (second conjunct). -/
theorem c5_first_error_wins :
    (∀ (s : BaseSentence) (cs : List Call),
      (runCalls (NewParser s) cs).Err = firstFailure s cs)
    ∧ (∀ (p : Parser) (cs : List Call) (e : NmeaError),
      p.err = some e → (runCalls p cs).Err = some e) := by
  constructor
  · intro s cs
    show (runCalls (NewParser s) cs).err = firstFailure s cs
    rw [runCalls_err cs (NewParser s)]
    rfl
  · intro p cs e h
    show (runCalls p cs).err = some e
    rw [runCalls_err cs p, h]
    rfl

/-- Witness for C5: on a concrete ZDA sentence whose day and month
fields are both malformed, the reported error is the day one (the first
failure in call order), and a pre-recorded error survives the whole ZDA
call sequence. -/
theorem c5_first_error_wins_witness :
    (runCalls (NewParser zdaSample) zdaCalls).Err
      = some (.fieldParse "day".data "x1".data)
    ∧ (runCalls (Parser.mk zdaSample (some .noChecksumSep)) zdaCalls).Err
      = some .noChecksumSep :=
  ⟨(c5_first_error_wins.1 zdaSample zdaCalls).trans (by decide),
   c5_first_error_wins.2 (Parser.mk zdaSample (some .noChecksumSep)) zdaCalls
     .noChecksumSep rfl⟩

theorem mod256_xor_mod256 (a b : Nat) : (a % 256 ^^^ b) % 256 = (a ^^^ b) % 256 := by
  have h : (256 : Nat) = 2 ^ 8 := by norm_num
  rw [h]
  apply Nat.eq_of_testBit_eq
  intro i
  by_cases hi : i < 8
  · simp only [Nat.testBit_mod_two_pow, Nat.testBit_xor, hi]
    simp
  · simp only [Nat.testBit_mod_two_pow, Nat.testBit_xor, hi]
    simp

theorem xorStep_comm (a : Nat) (x y : Char) :
    xorStep (xorStep a x) y = xorStep (xorStep a y) x := by
  unfold xorStep
  rw [mod256_xor_mod256, mod256_xor_mod256, Nat.xor_assoc, Nat.xor_assoc,
    Nat.xor_comm (byteVal x) (byteVal y)]

theorem foldl_xorStep_swap (x y : Char) (l₃ : GoStr) :
    ∀ (l₂ : GoStr) (acc : Nat),
      List.foldl xorStep acc (x :: (l₂ ++ (y :: l₃)))
        = List.foldl xorStep acc (y :: (l₂ ++ (x :: l₃))) := by
  intro l₂
  induction l₂ with
  | nil =>
    intro acc
    show List.foldl xorStep (xorStep (xorStep acc x) y) l₃
        = List.foldl xorStep (xorStep (xorStep acc y) x) l₃
    rw [xorStep_comm]
  | cons c l₂ ih =>
    intro acc
    show List.foldl xorStep (xorStep (xorStep acc x) c) (l₂ ++ (y :: l₃))
        = List.foldl xorStep (xorStep (xorStep acc y) c) (l₂ ++ (x :: l₃))
    calc List.foldl xorStep (xorStep (xorStep acc x) c) (l₂ ++ (y :: l₃))
        = List.foldl xorStep (xorStep (xorStep acc c) x) (l₂ ++ (y :: l₃)) := by
          rw [xorStep_comm]
      _ = List.foldl xorStep (xorStep (xorStep acc c) y) (l₂ ++ (x :: l₃)) :=
          ih (xorStep acc c)
      _ = List.foldl xorStep (xorStep (xorStep acc y) c) (l₂ ++ (x :: l₃)) := by
          rw [xorStep_comm]

/-- C4 counterexample: the claim that swapping two bytes of different
values changes the checksum is false at the two-byte input `ab`: the
swap yields `ba`, whose XOR checksum is identical. -/
theorem c4_swap_sensitivity_counterexample :
    ('a' ≠ 'b') ∧ xorChecksum ['b', 'a'] = xorChecksum ['a', 'b'] := by
  decide

/-- C4 as amended: the XOR checksum is deterministic, and it is order
insensitive — swapping the bytes at any two positions (equal or not)
never changes the checksum. -/
theorem c4_xor_deterministic_and_swap_invariant :
    (∀ b₁ b₂ : GoStr, b₁ = b₂ → xorChecksum b₁ = xorChecksum b₂)
    ∧ (∀ (l₁ l₂ l₃ : GoStr) (x y : Char),
      xorChecksum (l₁ ++ (x :: (l₂ ++ (y :: l₃))))
        = xorChecksum (l₁ ++ (y :: (l₂ ++ (x :: l₃))))) := by
  constructor
  · intro b₁ b₂ h
    rw [h]
  · intro l₁ l₂ l₃ x y
    unfold xorChecksum
    apply congrArg toHex2
    unfold xorBytes
    rw [List.foldl_append, List.foldl_append]
    exact foldl_xorStep_swap x y l₃ l₂ (List.foldl xorStep 0 l₁)

/-- Witness for C4: determinism and swap invariance evaluated on the
two-byte input `ab`. -/
theorem c4_xor_deterministic_and_swap_invariant_witness :
    xorChecksum ['a', 'b'] = xorChecksum ['a', 'b']
    ∧ xorChecksum ['a', 'b'] = xorChecksum ['b', 'a'] :=
  ⟨c4_xor_deterministic_and_swap_invariant.1 ['a', 'b'] ['a', 'b'] rfl,
   c4_xor_deterministic_and_swap_invariant.2 [] [] [] 'a' 'b'⟩

/-- C7: the talker/type splitter is total and matches its three-case
contract: a leading `P` yields talker `P` and the remainder as type
(even an empty remainder); otherwise a short input is returned whole as
talker with empty type; otherwise the first two characters are the
talker and the rest the type.  In particular `PGRME` splits into `P` and
`GRME`, and `G` into `G` and the empty type. -/
theorem c7_parse_pfx_cases :
    (∀ r : GoStr, parsePfx ('P' :: r) = (['P'], r))
    ∧ (∀ s : GoStr, s.head? ≠ some 'P' → s.length < 2 → parsePfx s = (s, []))
    ∧ (∀ s : GoStr, s.head? ≠ some 'P' → 2 ≤ s.length →
        parsePfx s = (s.take 2, s.drop 2))
    ∧ parsePfx "PGRME".data = ("P".data, "GRME".data)
    ∧ parsePfx "G".data = ("G".data, []) := by
  refine ⟨?_, ?_, ?_, by decide, by decide⟩
  · intro r
    simp [parsePfx, goStartsWith]
  · intro s h1 h2
    cases s with
    | nil => decide
    | cons c s' =>
      have hc : ¬ c = 'P' := by
        intro hh
        exact h1 (by rw [List.head?_cons, hh])
      cases s' with
      | cons d s'' =>
        simp only [List.length_cons] at h2
        omega
      | nil =>
        have hgs : goStartsWith 'P' [c] = false := by
          simp [goStartsWith, hc]
        simp [parsePfx, hgs]
  · intro s h1 h2
    cases s with
    | nil => simp at h2
    | cons c s' =>
      have hc : ¬ c = 'P' := by
        intro hh
        exact h1 (by rw [List.head?_cons, hh])
      have hgs : goStartsWith 'P' (c :: s') = false := by
        simp [goStartsWith, hc]
      simp only [List.length_cons] at h2
      simp [parsePfx, hgs]
      intro hcon
      exact absurd hcon (by omega)

/-- Witness for C7: the three cases at concrete inputs. -/
theorem c7_parse_pfx_cases_witness :
    parsePfx ['P', 'X'] = (['P'], ['X'])
    ∧ parsePfx ['G'] = (['G'], [])
    ∧ parsePfx ['G', 'P', 'R'] = (['G', 'P'], ['R']) :=
  ⟨c7_parse_pfx_cases.1 ['X'],
   c7_parse_pfx_cases.2.1 ['G'] (by decide) (by decide),
   c7_parse_pfx_cases.2.2.1 ['G', 'P', 'R'] (by decide) (by decide)⟩

/-- C8: whenever neither start marker sits at offset 0 — even if one
occurs later in the input — `ParseSentence` fails with the
missing-start-marker framing error. -/
theorem c8_marker_must_be_first (raw : GoStr)
    (h : raw.head? ≠ some '$' ∧ raw.head? ≠ some '!') :
    ParseSentence raw = .err emptyBase .noStartMarker := by
  have hne : goIndexAny ['$', '!'] raw ≠ some 0 := by
    cases raw with
    | nil => simp [goIndexAny]
    | cons c rest =>
      have hd : ¬ c = '$' := by
        intro hh
        exact h.1 (by rw [List.head?_cons, hh])
      have hb : ¬ c = '!' := by
        intro hh
        exact h.2 (by rw [List.head?_cons, hh])
      have hcontains : (['$', '!'].contains c) = false := by
        simp [hd, hb]
      simp only [goIndexAny, hcontains, Bool.false_eq_true, if_false]
      cases hr : goIndexAny ['$', '!'] rest <;> simp [hr]
  simp only [ParseSentence]
  rw [if_pos hne]

/-- Witness for C8: the RMC example prefixed with a junk byte is
rejected although it contains a start marker at offset 1. -/
theorem c8_marker_must_be_first_witness :
    ParseSentence rmcShifted = .err emptyBase .noStartMarker :=
  c8_marker_must_be_first rmcShifted (by decide)

/-- C10: whenever `ParseSentence` returns an error — missing marker,
missing checksum separator, or checksum mismatch — the accompanying
record is the zero value: empty talker, type, field list, checksum and
raw text, so no partially framed record is observable on failure. -/
theorem c10_error_returns_zero_value (raw : GoStr) (e : NmeaError) (s : BaseSentence)
    (h : ParseSentence raw = .err s e) :
    s.Talker = [] ∧ s.Typ = [] ∧ s.Fields = [] ∧ s.Checksum = [] ∧ s.Raw = [] := by
  have hs : s = emptyBase := by
    simp only [ParseSentence] at h
    split at h
    · injection h with h1 h2
      exact h1.symm
    · split at h
      · injection h with h1 h2
        exact h1.symm
      · split at h
        · exact POutcome.noConfusion h
        · split at h
          · injection h with h1 h2
            exact h1.symm
          · exact POutcome.noConfusion h
  rw [hs]
  exact ⟨rfl, rfl, rfl, rfl, rfl⟩

/-- Witness for C10 at the one-byte input `x`, which fails framing. -/
theorem c10_error_returns_zero_value_witness :
    emptyBase.Talker = [] ∧ emptyBase.Typ = [] ∧ emptyBase.Fields = []
    ∧ emptyBase.Checksum = [] ∧ emptyBase.Raw = [] :=
  c10_error_returns_zero_value ['x'] .noStartMarker emptyBase (by decide)

theorem ParseSentence_not_ok (raw : GoStr) : (ParseSentence raw).isOk = false := by
  simp only [ParseSentence]
  split
  · rfl
  · split
    · rfl
    · split
      · rfl
      · split
        · rfl
        · rename_i i heq hbound hcs
          exfalso
          have hb2 : i + 2 ≤ raw.length := Nat.not_lt.mp hbound
          have hcs' : xorChecksum (goSlice raw 1 i)
              = goToUpper (goSlice raw (i + 1) (i + 2)) := not_ne_iff.mp hcs
          have hlen1 : (goToUpper (goSlice raw (i + 1) (i + 2))).length = 1 := by
            unfold goToUpper goSlice
            rw [List.length_map, List.length_drop, List.length_take,
              Nat.min_eq_left hb2]
            omega
          have hlen2 : (goToUpper (goSlice raw (i + 1) (i + 2))).length = 2 := by
            rw [← hcs']
            rfl
          rw [hlen1] at hlen2
          exact absurd hlen2 (by decide)

set_option maxRecDepth 8192 in
/-- C1: on the end-to-end RMC example the claim expects a successful
decode with talker `GP`, type `RMC`, 12 data fields, checksum `70` and a
nil error; the code instead fails, because the declared checksum it
extracts is the single character after the separator (`7`), which can
never equal the two-digit computed value (`70`). -/
theorem c1_rmc_parse_returns_checksum_error :
    Parse rmcRaw = .err (.checksumMismatch "70".data "7".data) := by
  decide

/-- C2: the claim says the computed two-hex-digit checksum is compared
with the two characters following the separator, succeeding exactly on
equality; the code compares it with only one character, so even the
checksum-valid input `$A*41` is rejected (first conjunct) and no input
whatsoever passes the checksum check (second conjunct). -/
theorem c2_checksum_compared_to_single_char :
    ParseSentence tinyValid = .err emptyBase (.checksumMismatch "41".data "4".data)
    ∧ ∀ raw : GoStr, (ParseSentence raw).isOk = false :=
  ⟨by decide, ParseSentence_not_ok⟩

/-- C3: the claim requires an error value when the separator is followed
by fewer than two characters; with the separator as final byte the code
instead performs an out-of-range slice — a runtime fault, not an error
return. -/
theorem c3_separator_at_end_faults : ParseSentence tinyTruncated = .fault := by
  decide

/-- C6: the claim expects the well-framed, checksum-valid sentence
`$GPZZZ*4D` to reach dispatch and produce an unsupported-sentence error
naming `GPZZZ`; the code rejects it earlier with a checksum mismatch
(first conjunct), and the neighbouring truncated input even panics
(second conjunct), so the unsupported error and the no-panic guarantee
are both unreachable. -/
theorem c6_unsupported_type_unreachable :
    Parse zzzRaw = .err (.checksumMismatch "4D".data "4".data)
    ∧ Parse zzzTruncated = .fault :=
  ⟨by decide, by decide⟩

/-- C9: the claim says a sentence whose separator precedes any comma
parses successfully (given a valid checksum) with zero data fields; the
code rejects the checksum-valid `$GPAAM*5A` with a checksum mismatch
because it reads only one declared checksum character. -/
theorem c9_zero_data_field_sentence_rejected :
    ParseSentence noFieldsRaw
      = .err emptyBase (.checksumMismatch "5A".data "5".data) := by
  decide
